import Mathlib

/-!
Shallow embedding of the raster-export subsystem of `SCKelemen/render-svg`
(file `export.go`, package `svg`), together with theorems settling the
specification claims about it.

Modelling conventions:

* Go strings are byte arrays; the SVG inputs handled here are ASCII, and we
  model a Go string as a Lean `String` manipulated through its list of
  characters (`String.data`).  Byte length and character length coincide for
  ASCII, and all string constants in `export.go` are ASCII.
* `strings.TrimSpace` / `strings.Fields` use `unicode.IsSpace`.  We model the
  white-space set by its ASCII members plus U+0085 and U+00A0; the remaining
  Unicode `White_Space` runes are not modelled.
* `strconv.ParseFloat (s, 64)` is modelled by an exact decimal parser
  (`parseGoFloat`, producing a scaled decimal `DecValue`): optional sign,
  decimal mantissa with optional dot, optional decimal exponent, and an
  overflow cutoff of `2 ^ 1024`.
  Hexadecimal floats, `Inf`, `NaN`, digit-separating underscores and the exact
  binary64 rounding (including the precise overflow boundary) are not
  modelled; the parsed value is exact.
* The `encoding/xml` decoder is external to the repository; `parseSVG` loops
  over `decoder.Token()` until the first error (including `io.EOF`).  We model
  the decoder's output as an explicit list of tokens (`XmlToken`): the tokens
  successfully decoded before the first error.  An empty list models empty
  input or a decode error before anything was produced.
* The pixel-pushing libraries (`image/draw`, `golang.org/x/image/vector`,
  `image/png`, `image/jpeg`) are external and deterministic; we model the
  rasterizer by the ordered list of paint operations (`Shape`) issued to it,
  and each encoder as an injective packaging of its inputs (`ExportOut`).
  Encoder-internal failures are not modelled.
* Go's `renderElement`, `renderRect`, `renderCircle`, `renderLine` and
  `getSVGDimensions` have an `error` result that is `nil` on every return
  path of the shape renderers; the dimension resolver keeps its
  `Except`-shaped signature, the shape renderers are modelled as pure.
-/

/-! ## Go string helpers (`strings` package, restricted to ASCII inputs) -/

/-- `unicode.IsSpace`, restricted to the ASCII white-space characters plus
U+0085 and U+00A0 (the Latin-1 members of `White_Space`). -/
def isGoSpace (c : Char) : Bool :=
  c.toNat = 9 ∨ c.toNat = 10 ∨ c.toNat = 11 ∨ c.toNat = 12 ∨ c.toNat = 13 ∨
    c.toNat = 32 ∨ c.toNat = 133 ∨ c.toNat = 160

/-- ASCII lower-casing of one character (`unicode.ToLower` restricted to
ASCII). -/
def toLowerChar (c : Char) : Char :=
  if 65 ≤ c.toNat ∧ c.toNat ≤ 90 then Char.ofNat (c.toNat + 32) else c

/-- `strings.TrimSpace` on a character list: drop white space from both
ends. -/
def goTrimSpace (l : List Char) : List Char :=
  ((l.dropWhile isGoSpace).reverse.dropWhile isGoSpace).reverse

/-- `strings.TrimSpace` on a string. -/
def goTrimSpaceS (s : String) : String := ⟨goTrimSpace s.data⟩

/-- `strings.ToLower` on a string (ASCII). -/
def goToLowerS (s : String) : String := ⟨s.data.map toLowerChar⟩

/-- `strings.TrimSuffix s suf`: remove `suf` once if it is a suffix,
otherwise return `s` unchanged. -/
def goTrimSuffix (l suf : List Char) : List Char :=
  if suf.isSuffixOf l then l.take (l.length - suf.length) else l

/-- `strings.Fields`: split around runs of white space; no empty fields. -/
def goFields (l : List Char) : List (List Char) :=
  (l.foldr
    (fun c acc =>
      if isGoSpace c then [] :: acc
      else
        match acc with
        | [] => [[c]]
        | w :: ws => (c :: w) :: ws)
    []).filter (fun w => ¬w.isEmpty)

/-! ## Decimal parsing (`strconv.ParseFloat`, `strconv.ParseUint`) -/

/-- ASCII decimal digit test. -/
def isDigitC (c : Char) : Bool := 48 ≤ c.toNat ∧ c.toNat ≤ 57

/-- Numeric value of a list of decimal digits (most significant first). -/
def digitsVal (l : List Char) : Nat :=
  l.foldl (fun a c => 10 * a + (c.toNat - 48)) 0

/-- The exact value of a decimal float literal, represented as
`(-1)^neg * mant * 10^exp` with exact integer data.  (An exact scaled
decimal rather than `ℚ`, so that every theorem about it evaluates inside
the kernel.) -/
structure DecValue where
  neg : Bool
  mant : Nat
  exp : Int
deriving DecidableEq, Repr

/-- `|v| ≥ bound`, decided exactly on the scaled-decimal representation. -/
def DecValue.absGE (v : DecValue) (bound : Nat) : Bool :=
  if 0 ≤ v.exp then bound ≤ v.mant * 10 ^ v.exp.toNat
  else bound * 10 ^ (-v.exp).toNat ≤ v.mant

/-- Truncation toward zero of `(-1)^neg * mant * 10^exp` (Go's
`int(float64)` conversion on in-range values). -/
def DecValue.trunc (v : DecValue) : Int :=
  let n :=
    if 0 ≤ v.exp then v.mant * 10 ^ v.exp.toNat
    else v.mant / 10 ^ (-v.exp).toNat
  if v.neg then -(n : Int) else (n : Int)

/-- Mantissa of a Go decimal float literal: `digits [. [digits]]` or
`. digits`, at least one digit overall.  Returns the combined digit value
and the number of fractional digits. -/
def parseMantissa (l : List Char) : Option (Nat × Nat) :=
  let intPart := l.takeWhile isDigitC
  let rest := l.dropWhile isDigitC
  match rest with
  | [] => if intPart.isEmpty then none else some (digitsVal intPart, 0)
  | '.' :: frac =>
    if frac.all isDigitC ∧ (¬intPart.isEmpty ∨ ¬frac.isEmpty) then
      some (digitsVal (intPart ++ frac), frac.length)
    else none
  | _ => none

/-- Exponent part of a Go decimal float literal (after the `e`/`E`). -/
def parseExp (l : List Char) : Option Int :=
  match l with
  | '+' :: d =>
    if ¬d.isEmpty ∧ d.all isDigitC then some (digitsVal d : Int) else none
  | '-' :: d =>
    if ¬d.isEmpty ∧ d.all isDigitC then some (-(digitsVal d : Int)) else none
  | d => if ¬d.isEmpty ∧ d.all isDigitC then some (digitsVal d : Int) else none

/-- Magnitude at which the binary64 result of `strconv.ParseFloat` overflows
to an infinity (modelled as `2 ^ 1024`, written out as a literal so that it
evaluates without deep `Nat.pow` unfolding; see the file header). -/
def float64Cutoff : Nat :=
  179769313486231590772930519078902473361797697894230657273430081157732675805500963132708477322407536021120113879871393357658789768814416622492847430639474124377767893424865485276302219601246094119453082952085005768838150682342462881473913110540827237163350510684586298239947245938479716304835356329624224137216

/-- Reject values outside the modelled binary64 range (Go reports
`ErrRange`, a non-nil error). -/
def finishFloat (v : DecValue) : Option DecValue :=
  if v.absGE float64Cutoff then none else some v

/-- Model of `strconv.ParseFloat (s, 64)` for decimal literals: the exact
value of the literal as a scaled decimal, or `none` when the string is not
a decimal float literal or overflows the modelled range. -/
def parseGoFloat (s : List Char) : Option DecValue :=
  let signBody : Bool × List Char :=
    match s with
    | '+' :: r => (false, r)
    | '-' :: r => (true, r)
    | r => (false, r)
  let mant := signBody.2.takeWhile (fun c => c ≠ 'e' ∧ c ≠ 'E')
  let rest := signBody.2.dropWhile (fun c => c ≠ 'e' ∧ c ≠ 'E')
  match parseMantissa mant, rest with
  | some m, [] => finishFloat ⟨signBody.1, m.1, -(m.2 : Int)⟩
  | some m, _ :: expPart =>
    match parseExp expPart with
    | some e => finishFloat ⟨signBody.1, m.1, e - (m.2 : Int)⟩
    | none => none
  | none, _ => none

/-- ASCII hexadecimal digit test. -/
def isHexDigitC (c : Char) : Bool :=
  isDigitC c ∨ (97 ≤ c.toNat ∧ c.toNat ≤ 102) ∨ (65 ≤ c.toNat ∧ c.toNat ≤ 70)

/-- Numeric value of one hexadecimal digit. -/
def hexDigitVal (c : Char) : Nat :=
  if isDigitC c then c.toNat - 48
  else if 97 ≤ c.toNat then c.toNat - 87
  else c.toNat - 55

/-- Model of `strconv.ParseUint (s, 16, 8)`: a non-empty string of hex
digits whose value fits in 8 bits; no sign, no `0x` prefix (Go only accepts
the prefix when the base argument is 0). -/
def parseHexUint8 (l : List Char) : Option Nat :=
  if l.isEmpty then none
  else if l.all isHexDigitC then
    let v := l.foldl (fun a c => 16 * a + hexDigitVal c) 0
    if v < 256 then some v else none
  else none

/-! ## `parseLength` (`export.go` lines 226–236) -/

/-- `parseLength` on a character list: trim white space, strip a trailing
`px`, then a trailing `pt`, parse as a float, truncate toward zero;
0 on any parse failure. -/
def parseLengthL (l : List Char) : Int :=
  let s1 := goTrimSpace l
  let s2 := goTrimSuffix s1 ['p', 'x']
  let s3 := goTrimSuffix s2 ['p', 't']
  match parseGoFloat s3 with
  | some q => q.trunc
  | none => 0

/-- `parseLength` (`export.go`). -/
def parseLength (s : String) : Int := parseLengthL s.data

/-! ## `parseColor` (`export.go` lines 350–405) -/

/-- An 8-bit RGBA color value (the concrete values produced by
`parseColor`: `color.RGBA`, `color.Transparent`, `color.White`,
`color.Black`, all read at 8 bits per channel). -/
structure RGBA where
  r : Nat
  g : Nat
  b : Nat
  a : Nat
deriving DecidableEq, Repr

/-- `color.Transparent` as RGBA. -/
def transparentRGBA : RGBA := ⟨0, 0, 0, 0⟩

/-- `color.White` as RGBA. -/
def whiteRGBA : RGBA := ⟨255, 255, 255, 255⟩

/-- `color.Black` as RGBA. -/
def blackRGBA : RGBA := ⟨0, 0, 0, 255⟩

/-- `parseColor` on a character list: trim; empty or `none` is transparent;
a `#`-prefixed token is parsed as hex with per-channel leniency (a channel
that fails to parse stays 0) and alpha 255; otherwise the five recognized
color names, with opaque black as the final fallback. -/
def parseColorL (s0 : List Char) : RGBA :=
  let s := goTrimSpace s0
  if s.isEmpty ∨ s = "none".data then transparentRGBA
  else if s.head? = some '#' then
    let hx := s.tail
    if hx.length = 6 then
      ⟨(parseHexUint8 (hx.take 2)).getD 0,
       (parseHexUint8 ((hx.drop 2).take 2)).getD 0,
       (parseHexUint8 ((hx.drop 4).take 2)).getD 0, 255⟩
    else if hx.length = 3 then
      ⟨((parseHexUint8 (hx.take 1)).map (fun v => v * 17)).getD 0,
       ((parseHexUint8 ((hx.drop 1).take 1)).map (fun v => v * 17)).getD 0,
       ((parseHexUint8 ((hx.drop 2).take 1)).map (fun v => v * 17)).getD 0,
       255⟩
    else ⟨0, 0, 0, 255⟩
  else if s = "white".data then whiteRGBA
  else if s = "black".data then blackRGBA
  else if s = "red".data then ⟨255, 0, 0, 255⟩
  else if s = "green".data then ⟨0, 255, 0, 255⟩
  else if s = "blue".data then ⟨0, 0, 255, 255⟩
  else blackRGBA

/-- `parseColor` (`export.go`). -/
def parseColor (s : String) : RGBA := parseColorL s.data

/-! ## The element tree and `parseSVG` (`export.go` lines 60–121) -/

/-- `svgElement`: tag, attributes (the decoded attribute list; Go stores it
in a `map[string]string`, which we model by last-binding-wins lookup),
children, and trimmed text payload. -/
inductive Element where
  | mk (tag : String) (attrs : List (String × String))
      (children : List Element) (text : String)

/-- Tag of an element. -/
def Element.tag : Element → String
  | .mk t _ _ _ => t

/-- Attribute list of an element. -/
def Element.attrs : Element → List (String × String)
  | .mk _ a _ _ => a

/-- Children of an element. -/
def Element.children : Element → List Element
  | .mk _ _ c _ => c

/-- Text payload of an element. -/
def Element.text : Element → String
  | .mk _ _ _ t => t

/-- Lookup in the attribute map: the last binding of a key wins, matching
assignment order into Go's `map[string]string`. -/
def attrGet (m : List (String × String)) (k : String) : Option String :=
  (m.reverse.find? (fun p => p.1 == k)).map (fun p => p.2)

/-- Attribute read through Go's single-value map index: a missing key yields
the zero value `""`. -/
def attrGetD (m : List (String × String)) (k : String) : String :=
  (attrGet m k).getD ""

/-- One token produced by the `encoding/xml` decoder.  `other` stands for
the token kinds the parser's `switch` ignores (comments, directives,
processing instructions). -/
inductive XmlToken where
  | start (name : String) (attrs : List (String × String))
  | stop
  | chardata (s : String)
  | other

/-- Append a child element to a parent's child list
(`parent.Children = append(parent.Children, *elem)`; the appended value is
a copy of the child at this moment). -/
def addChild (p c : Element) : Element :=
  match p with
  | .mk t a ch tx => .mk t a (ch ++ [c]) tx

/-- Overwrite an element's text payload. -/
def setText (p : Element) (tx : String) : Element :=
  match p with
  | .mk t a ch _ => .mk t a ch tx

/-- Parser state: the open-element stack (top first; each entry is the
current heap value of that element) and, when the element the `root`
variable points to has been closed, its value at close time.  Because Go
appends `*elem` — a struct copy taken before any children are parsed — to
the parent's child list and later mutates only the heap object on the
stack, popping a non-bottom element discards everything accumulated in it;
only the bottom element (aliased by `root`) keeps its accumulated state. -/
structure PState where
  stack : List Element
  closedRoot : Option Element

/-- One iteration of the token loop of `parseSVG`. -/
def stepToken (st : PState) (t : XmlToken) : PState :=
  match t with
  | .start tag attrs =>
    let e : Element := .mk tag attrs [] ""
    match st.stack with
    | [] => ⟨[e], none⟩
    | top :: rest => ⟨e :: addChild top e :: rest, st.closedRoot⟩
  | .stop =>
    match st.stack with
    | [] => st
    | [x] => ⟨[], some x⟩
    | _ :: rest => ⟨rest, st.closedRoot⟩
  | .chardata s =>
    match st.stack with
    | [] => st
    | top :: rest =>
      let tx := goTrimSpaceS s
      if tx ≠ "" then ⟨setText top tx :: rest, st.closedRoot⟩ else st
  | .other => st

/-- `parseSVG` over the decoder's token stream: fold the token loop, then
return the element the `root` variable points to — the bottom of the stack
when the stack is non-empty, otherwise the last closed top-level element —
or the `no SVG root element found` error when no start tag was seen. -/
def parseSVG (tokens : List XmlToken) : Except String Element :=
  let st := tokens.foldl stepToken ⟨[], none⟩
  match st.stack.getLast? with
  | some b => Except.ok b
  | none =>
    match st.closedRoot with
    | some r => Except.ok r
    | none => Except.error "no SVG root element found"

/-! ## Export options and formats (`export.go` lines 19–47, 424–464) -/

/-- `ExportFormat` is a Go string type. -/
abbrev ExportFormat := String

/-- `FormatSVG`: passthrough export. -/
def FormatSVG : ExportFormat := "svg"

/-- `FormatPNG`: lossless raster export. -/
def FormatPNG : ExportFormat := "png"

/-- `FormatJPEG`: lossy raster export. -/
def FormatJPEG : ExportFormat := "jpeg"

/-- `ExportOptions` (`export.go`). -/
structure ExportOptions where
  Format : ExportFormat
  Width : Int
  Height : Int
  Quality : Int
  DPI : Int

/-- `DefaultExportOptions` (`export.go`): format `svg`, width and height 0,
quality 90, DPI 96. -/
def DefaultExportOptions : ExportOptions :=
  ⟨FormatSVG, 0, 0, 90, 96⟩

/-- `GetMimeType` (`export.go`). -/
def GetMimeType (format : ExportFormat) : String :=
  if format = FormatSVG then "image/svg+xml"
  else if format = FormatPNG then "image/png"
  else if format = FormatJPEG then "image/jpeg"
  else "application/octet-stream"

/-- `GetFileExtension` (`export.go`). -/
def GetFileExtension (format : ExportFormat) : String :=
  if format = FormatSVG then ".svg"
  else if format = FormatPNG then ".png"
  else if format = FormatJPEG then ".jpg"
  else ".bin"

/-- `ParseFormat` (`export.go`): lower-case the trimmed token, then match
`svg`, `png`, `jpeg`/`jpg`; anything else is the unknown-format error. -/
def ParseFormat (s : String) : Except String ExportFormat :=
  let t := goToLowerS (goTrimSpaceS s)
  if t = "svg" then Except.ok FormatSVG
  else if t = "png" then Except.ok FormatPNG
  else if t = "jpeg" ∨ t = "jpg" then Except.ok FormatJPEG
  else Except.error ("unknown format: " ++ t)

/-! ## `getSVGDimensions` (`export.go` lines 182–223) -/

/-- The `viewBox` block of `getSVGDimensions`: when either axis is still 0,
look up the `viewBox` attribute, split it into fields, and — only when
there are exactly four fields — fill each still-0 axis from the third and
fourth field respectively. -/
def viewBoxAdjust (root : Element) (w h : Int) : Int × Int :=
  if w = 0 ∨ h = 0 then
    match attrGet root.attrs "viewBox" with
    | some vb =>
      let parts := goFields vb.data
      if parts.length = 4 then
        (if w = 0 then parseLengthL (parts.getD 2 []) else w,
         if h = 0 then parseLengthL (parts.getD 3 []) else h)
      else (w, h)
    | none => (w, h)
  else (w, h)

/-- `getSVGDimensions`: request values first, then the root's
`width`/`height` attributes, then the `viewBox` third/fourth fields (the
`viewBoxAdjust` block above), then the 800×600 defaults.  The Go
function's error result is `nil` on its single return path. -/
def getSVGDimensions (root : Element) (opts : ExportOptions) :
    Except String (Int × Int) :=
  let w0 := opts.Width
  let h0 := opts.Height
  let w1 :=
    if w0 = 0 then
      match attrGet root.attrs "width" with
      | some w => parseLength w
      | none => w0
    else w0
  let h1 :=
    if h0 = 0 then
      match attrGet root.attrs "height" with
      | some h => parseLength h
      | none => h0
    else h0
  let wh2 := viewBoxAdjust root w1 h1
  let w3 := if wh2.1 = 0 then 800 else wh2.1
  let h3 := if wh2.2 = 0 then 600 else wh2.2
  Except.ok (w3, h3)

/-! ## The shape rasterizer (`export.go` lines 238–347) -/

/-- One paint operation issued to the pixel libraries: a solid rectangle
(`renderRect`, via `draw.Draw` at full coverage), an antialiased circle
(`renderCircle`, the 32-segment polygon through the coverage rasterizer),
or an antialiased line (`renderLine`). -/
inductive Shape where
  | rect (x y w h : Int) (fill : RGBA)
  | circle (cx cy r : Int) (fill : RGBA)
  | line (x1 y1 x2 y2 : Int) (stroke : RGBA)
deriving DecidableEq, Repr

/-- `renderRect`: attribute reads through the map's zero value, lengths
via `parseLength`, fill via `parseColor`. -/
def renderRect (e : Element) : Shape :=
  .rect (parseLength (attrGetD e.attrs "x")) (parseLength (attrGetD e.attrs "y"))
    (parseLength (attrGetD e.attrs "width"))
    (parseLength (attrGetD e.attrs "height"))
    (parseColor (attrGetD e.attrs "fill"))

/-- `renderCircle`. -/
def renderCircle (e : Element) : Shape :=
  .circle (parseLength (attrGetD e.attrs "cx")) (parseLength (attrGetD e.attrs "cy"))
    (parseLength (attrGetD e.attrs "r")) (parseColor (attrGetD e.attrs "fill"))

/-- `renderLine`. -/
def renderLine (e : Element) : Shape :=
  .line (parseLength (attrGetD e.attrs "x1")) (parseLength (attrGetD e.attrs "y1"))
    (parseLength (attrGetD e.attrs "x2")) (parseLength (attrGetD e.attrs "y2"))
    (parseColor (attrGetD e.attrs "stroke"))

mutual

/-- `renderElement`: the ordered list of paint operations issued for an
element.  `svg` and `g` recurse into children; `rect`/`circle`/`line`
paint one shape; `text` and `path` are skipped (their children included);
any other tag recurses into children.  The Go error result is `nil` on
every path. -/
def renderElement : Element → List Shape
  | .mk tag attrs children tx =>
    if tag = "svg" then renderChildren children
    else if tag = "rect" then [renderRect (.mk tag attrs children tx)]
    else if tag = "circle" then [renderCircle (.mk tag attrs children tx)]
    else if tag = "line" then [renderLine (.mk tag attrs children tx)]
    else if tag = "g" then renderChildren children
    else if tag = "text" then []
    else if tag = "path" then []
    else renderChildren children

/-- Paint operations of a child list, in document order. -/
def renderChildren : List Element → List Shape
  | [] => []
  | c :: cs => renderElement c ++ renderChildren cs

end

/-! ## `rasterize` and `Export` (`export.go` lines 49–179) -/

/-- The pixel buffer handed to the encoder, represented by what determines
it: its dimensions, the white background fill, and the ordered paint
operations applied to it. -/
structure RasterImage where
  width : Int
  height : Int
  background : RGBA
  ops : List Shape

/-- The bytes produced by an export call, with each (deterministic,
external) encoder modelled as an injective packaging of its inputs. -/
inductive ExportOut where
  | passthrough (data : String)
  | png (img : RasterImage)
  | jpeg (img : RasterImage) (quality : Int)

/-- The effective JPEG quality computed inside `rasterize`: 0 becomes 90,
then values below 1 become 1, then values above 100 become 100. -/
def effectiveQuality (q : Int) : Int :=
  let q1 := if q = 0 then 90 else q
  let q2 := if q1 < 1 then 1 else q1
  if q2 > 100 then 100 else q2

/-- `rasterize`: parse, resolve dimensions, allocate the white canvas,
render, then encode per format.  `tokens` is the stream the XML decoder
yields on the input text (see the file header). -/
def rasterize (tokens : List XmlToken) (opts : ExportOptions) :
    Except String ExportOut :=
  match parseSVG tokens with
  | .error e => .error ("failed to parse SVG: " ++ e)
  | .ok root =>
    match getSVGDimensions root opts with
    | .error e => .error ("failed to get SVG dimensions: " ++ e)
    | .ok wh =>
      let img : RasterImage := ⟨wh.1, wh.2, whiteRGBA, renderElement root⟩
      if opts.Format = FormatPNG then .ok (.png img)
      else if opts.Format = FormatJPEG then
        .ok (.jpeg img (effectiveQuality opts.Quality))
      else .error ("unsupported format: " ++ opts.Format)

/-- `Export`: passthrough for `FormatSVG` — the input text is returned as
its bytes with no parsing — otherwise rasterization.  `tokens` is the XML
token stream the decoder yields on `svgData`; the passthrough branch never
consults it. -/
def Export (svgData : String) (tokens : List XmlToken)
    (opts : ExportOptions) : Except String ExportOut :=
  if opts.Format = FormatSVG then .ok (.passthrough svgData)
  else rasterize tokens opts

/-! ## Specification-side definitions and concrete inputs

The `spec…` definitions below are written from the words of the claims (for
the refinement claim C4), not from the source; the theorems compare them
with the source-derived definitions above. -/

/-- From the claim: dimension resolution for one axis, first match wins —
a non-zero explicit request value; otherwise the root's attribute parsed as
a length; otherwise the view-box token (already extracted, `none` when the
view box does not split into exactly four tokens); otherwise the default. -/
def specResolveAxis (req : Int) (attrVal : Option String)
    (vbTok : Option (List Char)) (dflt : Int) : Int :=
  if req ≠ 0 then req
  else
    let a := match attrVal with | some v => parseLength v | none => 0
    if a ≠ 0 then a
    else
      let v := match vbTok with | some tok => parseLengthL tok | none => 0
      if v ≠ 0 then v else dflt

/-- From the claim: the `i`-th whitespace-separated token of the root's
`viewBox` attribute, consulted only when the attribute is present and
splits into exactly four tokens. -/
def specViewBoxTok (root : Element) (i : Nat) : Option (List Char) :=
  match attrGet root.attrs "viewBox" with
  | some vb =>
    let parts := goFields vb.data
    if parts.length = 4 then some (parts.getD i []) else none
  | none => none

/-- From the claim: per-axis width resolution (request, `width` attribute,
third view-box token, default 800). -/
def specWidth (root : Element) (opts : ExportOptions) : Int :=
  specResolveAxis opts.Width (attrGet root.attrs "width") (specViewBoxTok root 2) 800

/-- From the claim: per-axis height resolution (request, `height`
attribute, fourth view-box token, default 600). -/
def specHeight (root : Element) (opts : ExportOptions) : Int :=
  specResolveAxis opts.Height (attrGet root.attrs "height") (specViewBoxTok root 3) 600

/-- From the claim: length parsing — trim whitespace, strip a trailing `px`
or `pt` suffix, parse the remainder as a float truncated toward zero, and
yield 0 on unparsable input. -/
def specParseLength (s : String) : Int :=
  ((parseGoFloat (goTrimSuffix (goTrimSuffix (goTrimSpace s.data) ['p', 'x'])
      ['p', 't'])).map DecValue.trunc).getD 0

/-- Lower-case hexadecimal digit for a value below 16. -/
def toHexDigit (n : Nat) : Char :=
  if n < 10 then Char.ofNat (48 + n) else Char.ofNat (87 + n)

/-- Is a decoder token a start-element token? -/
def isStartTok : XmlToken → Bool
  | .start _ _ => true
  | _ => false

/-- Token stream of
`<svg width="100" height="100"><g><rect x="10" y="10" width="80" height="80" fill="red"/></g></svg>`:
a supported rectangle nested inside a group inside the root. -/
def nestedTokens : List XmlToken :=
  [.start "svg" [("width", "100"), ("height", "100")],
   .start "g" [],
   .start "rect"
     [("x", "10"), ("y", "10"), ("width", "80"), ("height", "80"), ("fill", "red")],
   .stop, .stop, .stop]

/-- The tree `parseSVG` actually returns for `nestedTokens`: the group
child has lost its rectangle, because the parser appended a struct copy of
the group to the root before the rectangle was parsed. -/
def nestedParsedRoot : Element :=
  .mk "svg" [("width", "100"), ("height", "100")] [.mk "g" [] [] ""] ""

/-- The rectangle element of `nestedTokens`. -/
def nestedRectElem : Element :=
  .mk "rect"
    [("x", "10"), ("y", "10"), ("width", "80"), ("height", "80"), ("fill", "red")]
    [] ""

/-- The tree the claim expects `parseSVG` to return for `nestedTokens`:
every descendant preserved under its parent. -/
def nestedIntendedRoot : Element :=
  .mk "svg" [("width", "100"), ("height", "100")]
    [.mk "g" [] [nestedRectElem] ""] ""

/-- A `text` element with a supported rectangle child (for claim C2). -/
def textWithRectElem : Element :=
  .mk "text" [] [nestedRectElem] ""

/-! ## Helper lemmas -/

theorem dropWhile_eq_self_of_all {α} {p : α → Bool} :
    ∀ {l : List α}, (∀ c ∈ l, p c = false) → l.dropWhile p = l
  | [], _ => rfl
  | c :: cs, h => by
    simp [List.dropWhile_cons, h c (List.mem_cons_self c cs)]

theorem goTrimSpace_eq_self {l : List Char}
    (h : ∀ c ∈ l, isGoSpace c = false) : goTrimSpace l = l := by
  unfold goTrimSpace
  rw [dropWhile_eq_self_of_all h,
    dropWhile_eq_self_of_all (fun c hc => h c (List.mem_reverse.mp hc)),
    List.reverse_reverse]

/-! ## Claim theorems -/

/-- C1 (status: code_bug).  On the document
`<svg><g><rect …/></g></svg>` (token stream `nestedTokens`), `parseSVG`
returns a tree whose `g` child has no children — the parser appends a
struct copy of each element to its parent before the element's children
are parsed, so every descendant deeper than the root's direct children is
lost — and consequently the nested rectangle produces no paint operation.
The renderer itself does recurse correctly: on the tree the claim expects
the parser to build (`nestedIntendedRoot`), the rectangle is painted. -/
theorem nested_shape_lost_in_parse :
    parseSVG nestedTokens = .ok nestedParsedRoot ∧
    renderElement nestedParsedRoot = [] ∧
    renderElement nestedIntendedRoot =
      [Shape.rect 10 10 80 80 ⟨255, 0, 0, 255⟩] :=
  ⟨rfl, rfl, rfl⟩

/-- C2 counterexample.  A `text` element with a supported rectangle child
paints nothing at all: `renderElement` does not recurse into the children
of `text` (or `path`) elements, contrary to the claim; the rectangle alone
would paint. -/
theorem text_child_not_painted :
    renderElement textWithRectElem = [] ∧
    renderElement nestedRectElem = [Shape.rect 10 10 80 80 ⟨255, 0, 0, 255⟩] :=
  ⟨rfl, rfl⟩

/-- C2 (status: corrected).  For every element whose tag is none of the
seven explicitly handled tags, the rasterizer paints nothing for the
element itself and recurses into all of its children in order; but `text`
and `path` elements are skipped entirely, children included. -/
theorem render_unsupported_tags :
    (∀ (tag : String) (attrs : List (String × String))
        (children : List Element) (tx : String),
        tag ∉ ["svg", "rect", "circle", "line", "g", "text", "path"] →
        renderElement (.mk tag attrs children tx) = renderChildren children) ∧
    (∀ (attrs : List (String × String)) (children : List Element) (tx : String),
        renderElement (.mk "text" attrs children tx) = []) ∧
    (∀ (attrs : List (String × String)) (children : List Element) (tx : String),
        renderElement (.mk "path" attrs children tx) = []) := by
  refine ⟨?_, fun _ _ _ => rfl, fun _ _ _ => rfl⟩
  intro tag attrs children tx h
  simp only [List.mem_cons, List.not_mem_nil, or_false, not_or] at h
  obtain ⟨h1, h2, h3, h4, h5, h6, h7⟩ := h
  rw [renderElement]
  rw [if_neg h1, if_neg h2, if_neg h3, if_neg h4, if_neg h5, if_neg h6, if_neg h7]

/-- C2 witness. -/
theorem render_unsupported_tags_witness :
    ("marker" : String) ∉ ["svg", "rect", "circle", "line", "g", "text", "path"] ∧
    renderElement (.mk "marker" [] [nestedRectElem] "") =
      renderChildren [nestedRectElem] :=
  ⟨by decide, render_unsupported_tags.1 "marker" [] [nestedRectElem] "" (by decide)⟩

/-- C3 counterexample.  A root whose `width` attribute is `-5` makes the
dimension resolver return a non-positive width, refuting the claim that
the returned pair is always strictly positive. -/
theorem dims_negative_counterexample :
    getSVGDimensions (.mk "svg" [("width", "-5")] [] "") DefaultExportOptions =
      .ok (-5, 600) ∧ ¬(0 < (-5 : Int)) :=
  ⟨rfl, by decide⟩

/-- C5 counterexample.  `#ff00zz` is not `#` + 6 hex digits, yet it does
not yield opaque black: the two channels that do parse keep their values
(`r = 255`), only the failing channel defaults to 0. -/
theorem color_hex6_invalid_not_black :
    parseColor "#ff00zz" = ⟨255, 0, 0, 255⟩ ∧
    (⟨255, 0, 0, 255⟩ : RGBA) ≠ blackRGBA :=
  ⟨rfl, by decide⟩

/-- C6 (status: confirmed).  Exporting with the passthrough format returns
exactly the input text, whatever the input and the decoder's token stream
for it: the passthrough branch runs before any parsing. -/
theorem export_svg_passthrough (svgData : String) (tokens : List XmlToken)
    (opts : ExportOptions) (h : opts.Format = FormatSVG) :
    Export svgData tokens opts = .ok (.passthrough svgData) := by
  unfold Export
  rw [if_pos h]

/-- C6 witness. -/
theorem export_svg_passthrough_witness :
    DefaultExportOptions.Format = FormatSVG ∧
    Export "<oops <not <xml" [] DefaultExportOptions =
      .ok (.passthrough "<oops <not <xml") :=
  ⟨rfl, export_svg_passthrough "<oops <not <xml" [] DefaultExportOptions rfl⟩

/-- C7 (status: confirmed).  The quality handed to the JPEG encoder is 90
when the request is 0, 1 when below 1 (and not 0), 100 when above 100, the
requested value otherwise; and a JPEG export with quality 0 is identical
to the same export with quality 90. -/
theorem jpeg_quality_clamped :
    effectiveQuality 0 = 90 ∧
    (∀ q : Int, q ≠ 0 → q < 1 → effectiveQuality q = 1) ∧
    (∀ q : Int, 100 < q → effectiveQuality q = 100) ∧
    (∀ q : Int, 1 ≤ q → q ≤ 100 → effectiveQuality q = q) ∧
    (∀ (svgData : String) (tokens : List XmlToken) (opts : ExportOptions),
        opts.Format = FormatJPEG →
        Export svgData tokens ⟨opts.Format, opts.Width, opts.Height, 0, opts.DPI⟩ =
          Export svgData tokens ⟨opts.Format, opts.Width, opts.Height, 90, opts.DPI⟩) := by
  refine ⟨rfl, ?_, ?_, ?_, fun _ _ _ _ => rfl⟩ <;>
    · intro q
      simp only [effectiveQuality]
      split_ifs <;> omega

/-- C7 witness. -/
theorem jpeg_quality_clamped_witness :
    ((-5 : Int) ≠ 0 ∧ (-5 : Int) < 1 ∧ effectiveQuality (-5) = 1) ∧
    ((100 : Int) < 150 ∧ effectiveQuality 150 = 100) ∧
    ((1 : Int) ≤ 42 ∧ (42 : Int) ≤ 100 ∧ effectiveQuality 42 = 42) ∧
    (ExportOptions.Format ⟨FormatJPEG, 100, 100, 0, 96⟩ = FormatJPEG ∧
      Export "<svg/>" [.start "svg" [], .stop] ⟨FormatJPEG, 100, 100, 0, 96⟩ =
        Export "<svg/>" [.start "svg" [], .stop] ⟨FormatJPEG, 100, 100, 90, 96⟩) :=
  ⟨⟨by decide, by decide, jpeg_quality_clamped.2.1 (-5) (by decide) (by decide)⟩,
   ⟨by decide, jpeg_quality_clamped.2.2.1 150 (by decide)⟩,
   ⟨by decide, by decide, jpeg_quality_clamped.2.2.2.1 42 (by decide) (by decide)⟩,
   ⟨rfl, jpeg_quality_clamped.2.2.2.2 "<svg/>" [.start "svg" [], .stop]
      ⟨FormatJPEG, 100, 100, 55, 96⟩ rfl⟩⟩

/-- C10 (status: confirmed).  For every format value other than the three
known selectors, the metadata helpers return the generic fallbacks and do
not fail. -/
theorem metadata_fallbacks (format : ExportFormat)
    (h1 : format ≠ FormatSVG) (h2 : format ≠ FormatPNG)
    (h3 : format ≠ FormatJPEG) :
    GetMimeType format = "application/octet-stream" ∧
    GetFileExtension format = ".bin" := by
  unfold GetMimeType GetFileExtension
  rw [if_neg h1, if_neg h2, if_neg h3, if_neg h1, if_neg h2, if_neg h3]
  exact ⟨rfl, rfl⟩

/-- C10 witness. -/
theorem metadata_fallbacks_witness :
    ("webp" : ExportFormat) ≠ FormatSVG ∧ ("webp" : ExportFormat) ≠ FormatPNG ∧
    ("webp" : ExportFormat) ≠ FormatJPEG ∧
    GetMimeType "webp" = "application/octet-stream" ∧
    GetFileExtension "webp" = ".bin" :=
  ⟨by decide, by decide, by decide,
   metadata_fallbacks "webp" (by decide) (by decide) (by decide)⟩

theorem parseLength_eq_spec (s : String) : parseLength s = specParseLength s := by
  unfold parseLength parseLengthL specParseLength
  cases hq : parseGoFloat
      (goTrimSuffix (goTrimSuffix (goTrimSpace s.data) ['p', 'x']) ['p', 't']) <;>
    simp [hq]

theorem specResolveAxis_ne_zero (req : Int) (a : Option String)
    (v : Option (List Char)) (dflt : Int) (hd : dflt ≠ 0) :
    specResolveAxis req a v dflt ≠ 0 := by
  rcases a with _ | av <;> rcases v with _ | tok <;>
    simp only [specResolveAxis] <;> split_ifs <;> simp_all

theorem viewBoxAdjust_fst (root : Element) (w h : Int) :
    (viewBoxAdjust root w h).1 =
      if w = 0 then ((specViewBoxTok root 2).map parseLengthL).getD 0 else w := by
  unfold viewBoxAdjust specViewBoxTok
  rcases attrGet root.attrs "viewBox" with _ | vb <;>
    by_cases hw : w = 0 <;> by_cases hh : h = 0 <;>
      simp [hw, hh] <;> split_ifs <;> simp_all

theorem viewBoxAdjust_snd (root : Element) (w h : Int) :
    (viewBoxAdjust root w h).2 =
      if h = 0 then ((specViewBoxTok root 3).map parseLengthL).getD 0 else h := by
  unfold viewBoxAdjust specViewBoxTok
  rcases attrGet root.attrs "viewBox" with _ | vb <;>
    by_cases hw : w = 0 <;> by_cases hh : h = 0 <;>
      simp [hw, hh] <;> split_ifs <;> simp_all

set_option maxHeartbeats 1000000 in
theorem getSVGDimensions_eq_spec (root : Element) (opts : ExportOptions) :
    getSVGDimensions root opts = .ok (specWidth root opts, specHeight root opts) := by
  simp only [getSVGDimensions]
  rw [viewBoxAdjust_fst, viewBoxAdjust_snd]
  refine congrArg Except.ok (Prod.ext ?_ ?_)
  · show _ = specWidth root opts
    unfold specWidth
    simp only [specResolveAxis]
    rcases attrGet root.attrs "width" with _ | wA <;>
      rcases specViewBoxTok root 2 with _ | t2 <;>
        by_cases hw : opts.Width = 0 <;>
          simp [hw] <;> split_ifs <;> omega
  · show _ = specHeight root opts
    unfold specHeight
    simp only [specResolveAxis]
    rcases attrGet root.attrs "height" with _ | hA <;>
      rcases specViewBoxTok root 3 with _ | t3 <;>
        by_cases hh : opts.Height = 0 <;>
          simp [hh] <;> split_ifs <;> omega

/-- C4 (status: confirmed).  Dimension resolution is, per axis
independently, first-match: non-zero request value, then the root's
`width`/`height` attribute as a length, then the third/fourth `viewBox`
field (consulted only when the `viewBox` splits into exactly four fields),
then 800/600; and length parsing is trim, strip a trailing `px`/`pt`,
parse as a float truncated toward zero, 0 on unparsable input. -/
theorem dimension_resolution_per_axis :
    (∀ (root : Element) (opts : ExportOptions),
        getSVGDimensions root opts = .ok (specWidth root opts, specHeight root opts)) ∧
    (∀ s : String, parseLength s = specParseLength s) :=
  ⟨getSVGDimensions_eq_spec, parseLength_eq_spec⟩

/-- C3 (status: corrected).  The dimension resolver always returns (without
error) a pair of non-zero integers, and falls back to 800×600 when nothing
is derivable from request or document; but the result need not be strictly
positive — a negative request value or a negative parsed length is passed
through (see the counterexample). -/
theorem dimensions_nonzero_with_defaults :
    (∀ (root : Element) (opts : ExportOptions),
        ∃ w h : Int, getSVGDimensions root opts = .ok (w, h) ∧ w ≠ 0 ∧ h ≠ 0) ∧
    (∀ (root : Element) (opts : ExportOptions),
        opts.Width = 0 → opts.Height = 0 →
        attrGet root.attrs "width" = none → attrGet root.attrs "height" = none →
        attrGet root.attrs "viewBox" = none →
        getSVGDimensions root opts = .ok (800, 600)) := by
  constructor
  · intro root opts
    exact ⟨specWidth root opts, specHeight root opts,
      getSVGDimensions_eq_spec root opts,
      specResolveAxis_ne_zero _ _ _ _ (by decide),
      specResolveAxis_ne_zero _ _ _ _ (by decide)⟩
  · intro root opts h1 h2 h3 h4 h5
    rw [getSVGDimensions_eq_spec]
    unfold specWidth specHeight
    simp [specResolveAxis, specViewBoxTok, h1, h2, h3, h4, h5]

/-- C3 witness. -/
theorem dimensions_nonzero_with_defaults_witness :
    (DefaultExportOptions.Width = 0 ∧ DefaultExportOptions.Height = 0 ∧
      attrGet (Element.attrs (.mk "svg" [] [] "")) "width" = none ∧
      attrGet (Element.attrs (.mk "svg" [] [] "")) "height" = none ∧
      attrGet (Element.attrs (.mk "svg" [] [] "")) "viewBox" = none) ∧
    getSVGDimensions (.mk "svg" [] [] "") DefaultExportOptions = .ok (800, 600) :=
  ⟨⟨rfl, rfl, rfl, rfl, rfl⟩,
    dimensions_nonzero_with_defaults.2 (.mk "svg" [] [] "") DefaultExportOptions
      rfl rfl rfl rfl rfl⟩

theorem stepToken_nonstart_init (t : XmlToken) (h : isStartTok t = false) :
    stepToken ⟨[], none⟩ t = ⟨[], none⟩ := by
  cases t with
  | start n a => simp [isStartTok] at h
  | stop => rfl
  | chardata s => rfl
  | other => rfl

theorem foldl_preserves_rooted (ts : List XmlToken) :
    ∀ st : PState, st.stack ≠ [] ∨ st.closedRoot ≠ none →
      ((ts.foldl stepToken st).stack ≠ [] ∨
        (ts.foldl stepToken st).closedRoot ≠ none) := by
  induction ts with
  | nil => intro st h; exact h
  | cons t ts ih =>
    intro st h
    rw [List.foldl_cons]
    apply ih
    cases t with
    | start n a =>
      rcases hs : st.stack with _ | ⟨top, rest⟩ <;> simp [stepToken, hs]
    | stop =>
      rcases hs : st.stack with _ | ⟨x, rest⟩
      · simpa [stepToken, hs] using h
      · rcases rest with _ | ⟨y, rest2⟩
        · simp [stepToken, hs]
        · simp [stepToken, hs]
    | chardata s =>
      rcases hs : st.stack with _ | ⟨top, rest⟩
      · simpa [stepToken, hs] using h
      · by_cases ht : goTrimSpaceS s ≠ ""
        · simp [stepToken, hs, ht]
        · rw [show stepToken st (.chardata s) = st by simp [stepToken, hs, ht]]
          exact h
    | other => simpa [stepToken] using h

theorem foldl_nonstart (ts : List XmlToken)
    (h : ∀ t ∈ ts, isStartTok t = false) :
    ts.foldl stepToken ⟨[], none⟩ = ⟨[], none⟩ := by
  induction ts with
  | nil => rfl
  | cons t ts ih =>
    rw [List.foldl_cons, stepToken_nonstart_init t (h t (List.mem_cons_self t ts))]
    exact ih fun u hu => h u (List.mem_cons_of_mem t hu)

theorem foldl_any_rooted (ts : List XmlToken) (h : ts.any isStartTok = true) :
    (ts.foldl stepToken ⟨[], none⟩).stack ≠ [] ∨
      (ts.foldl stepToken ⟨[], none⟩).closedRoot ≠ none := by
  induction ts with
  | nil => simp at h
  | cons t ts ih =>
    rw [List.foldl_cons]
    by_cases hst : isStartTok t = true
    · apply foldl_preserves_rooted
      cases t with
      | start n a => simp [stepToken]
      | stop => simp [isStartTok] at hst
      | chardata s => simp [isStartTok] at hst
      | other => simp [isStartTok] at hst
    · have hf : isStartTok t = false := by simpa using hst
      rw [stepToken_nonstart_init t hf]
      apply ih
      simpa [List.any_cons, hf] using h

/-- C8 (status: confirmed).  Parsing fails (with the `no SVG root element
found` error) exactly when no start tag appears in the decoder's token
stream — i.e. the input was empty or the decoder failed before any start
tag; whenever at least one start tag was read, a (possibly partial) tree
is returned, unclosed elements notwithstanding. -/
theorem parseSVG_ok_iff_start (tokens : List XmlToken) :
    (∃ r, parseSVG tokens = .ok r) ↔ tokens.any isStartTok = true := by
  constructor
  · intro hr
    obtain ⟨r, hr⟩ := hr
    by_contra hany
    have hall : ∀ t ∈ tokens, isStartTok t = false := by
      intro t ht
      by_contra hb
      exact hany (List.any_eq_true.mpr ⟨t, ht, by simpa using hb⟩)
    unfold parseSVG at hr
    rw [foldl_nonstart tokens hall] at hr
    simp at hr
  · intro hany
    unfold parseSVG
    rcases foldl_any_rooted tokens hany with h | h
    · rcases hl : (tokens.foldl stepToken ⟨[], none⟩).stack.getLast? with _ | b
      · exact absurd (List.getLast?_eq_none_iff.mp hl) h
      · exact ⟨b, by simp [hl]⟩
    · rcases hl : (tokens.foldl stepToken ⟨[], none⟩).stack.getLast? with _ | b
      · rcases hc : (tokens.foldl stepToken ⟨[], none⟩).closedRoot with _ | r
        · exact absurd hc h
        · exact ⟨r, by simp [hl, hc]⟩
      · exact ⟨b, by simp [hl]⟩

theorem dropWhile_map_local (f : Char → Char) (p : Char → Bool) :
    ∀ l : List Char, (l.map f).dropWhile p = (l.dropWhile (fun c => p (f c))).map f
  | [] => rfl
  | c :: cs => by
    by_cases h : p (f c) = true <;>
      simp [List.dropWhile_cons, h, dropWhile_map_local f p cs]

theorem charOfNat_add32_toNat :
    ∀ v : Nat, v < 91 → 65 ≤ v → (Char.ofNat (v + 32)).toNat = v + 32 := by decide

theorem toLowerChar_toLowerChar (c : Char) :
    toLowerChar (toLowerChar c) = toLowerChar c := by
  unfold toLowerChar
  by_cases h : 65 ≤ c.toNat ∧ c.toNat ≤ 90
  · rw [if_pos h]
    have ht := charOfNat_add32_toNat c.toNat (by omega) h.1
    rw [if_neg]
    intro hcon
    rw [ht] at hcon
    omega
  · rw [if_neg h, if_neg h]

theorem isGoSpace_toLowerChar (c : Char) :
    isGoSpace (toLowerChar c) = isGoSpace c := by
  unfold toLowerChar
  by_cases h : 65 ≤ c.toNat ∧ c.toNat ≤ 90
  · rw [if_pos h]
    have ht := charOfNat_add32_toNat c.toNat (by omega) h.1
    unfold isGoSpace
    rw [ht]
    apply decide_eq_decide.mpr
    omega
  · rw [if_neg h]

theorem goTrimSpace_map_toLower (l : List Char) :
    goTrimSpace (l.map toLowerChar) = (goTrimSpace l).map toLowerChar := by
  unfold goTrimSpace
  have hp : (fun c => isGoSpace (toLowerChar c)) = isGoSpace :=
    funext isGoSpace_toLowerChar
  rw [dropWhile_map_local, hp, ← List.map_reverse, dropWhile_map_local, hp,
    ← List.map_reverse]

theorem lower_trim_lower (s : String) :
    goToLowerS (goTrimSpaceS (goToLowerS s)) = goToLowerS (goTrimSpaceS s) := by
  unfold goToLowerS goTrimSpaceS
  apply congrArg String.mk
  show (goTrimSpace (s.data.map toLowerChar)).map toLowerChar = _
  rw [goTrimSpace_map_toLower, List.map_map]
  have : toLowerChar ∘ toLowerChar = toLowerChar := funext toLowerChar_toLowerChar
  rw [this]

/-- C9 (status: confirmed).  `ParseFormat` is case-insensitive, maps `svg`,
`png`, `jpeg` and `jpg` to their format selectors (`jpeg` and `jpg` to the
same one), and fails with the unknown-format error on every other token
(tokens compared after trimming and lower-casing, which is what the
function itself does first). -/
theorem ParseFormat_spec :
    (∀ s : String, ParseFormat s = ParseFormat (goToLowerS s)) ∧
    ParseFormat "svg" = .ok FormatSVG ∧
    ParseFormat "png" = .ok FormatPNG ∧
    ParseFormat "jpeg" = .ok FormatJPEG ∧
    ParseFormat "jpg" = .ok FormatJPEG ∧
    (∀ s : String,
        goToLowerS (goTrimSpaceS s) ∉ (["svg", "png", "jpeg", "jpg"] : List String) →
        ∃ e, ParseFormat s = .error e) := by
  refine ⟨?_, rfl, rfl, rfl, rfl, ?_⟩
  · intro s
    unfold ParseFormat
    rw [lower_trim_lower]
  · intro s h
    simp only [List.mem_cons, List.not_mem_nil, or_false, not_or] at h
    obtain ⟨h1, h2, h3, h4⟩ := h
    unfold ParseFormat
    rw [if_neg h1, if_neg h2, if_neg (not_or.mpr ⟨h3, h4⟩)]
    exact ⟨_, rfl⟩

/-- C9 witness. -/
theorem ParseFormat_spec_witness :
    ParseFormat "JPeG" = ParseFormat (goToLowerS "JPeG") ∧
    (goToLowerS (goTrimSpaceS "webm") ∉ (["svg", "png", "jpeg", "jpg"] : List String) ∧
      ∃ e, ParseFormat "webm" = .error e) :=
  ⟨ParseFormat_spec.1 "JPeG",
   by decide,
   ParseFormat_spec.2.2.2.2.2 "webm" (by decide)⟩

theorem isHexDigit_not_space {c : Char} (h : isHexDigitC c = true) :
    isGoSpace c = false := by
  simp only [isHexDigitC, isDigitC, decide_eq_true_eq] at h
  simp only [isGoSpace]
  apply decide_eq_false
  omega

theorem hexDigitVal_lt16 {c : Char} (h : isHexDigitC c = true) :
    hexDigitVal c < 16 := by
  simp only [isHexDigitC, isDigitC, decide_eq_true_eq] at h
  unfold hexDigitVal isDigitC
  split_ifs with h1 h2 <;> simp only [decide_eq_true_eq] at h1 <;> omega

theorem parseHexUint8_pair {c1 c2 : Char} (h1 : isHexDigitC c1 = true)
    (h2 : isHexDigitC c2 = true) :
    parseHexUint8 [c1, c2] = some (16 * hexDigitVal c1 + hexDigitVal c2) := by
  have b1 := hexDigitVal_lt16 h1
  have b2 := hexDigitVal_lt16 h2
  unfold parseHexUint8
  rw [if_neg (by simp), if_pos (by simp [h1, h2])]
  simp only [List.foldl]
  rw [if_pos (by omega)]
  norm_num

theorem parseHexUint8_single {c : Char} (h : isHexDigitC c = true) :
    parseHexUint8 [c] = some (hexDigitVal c) := by
  have b := hexDigitVal_lt16 h
  unfold parseHexUint8
  rw [if_neg (by simp), if_pos (by simp [h])]
  simp only [List.foldl]
  rw [if_pos (by omega)]
  norm_num

theorem parseColorL_hash6 (c1 c2 c3 c4 c5 c6 : Char)
    (h : ∀ c ∈ [c1, c2, c3, c4, c5, c6], isGoSpace c = false) :
    parseColorL ['#', c1, c2, c3, c4, c5, c6] =
      ⟨(parseHexUint8 [c1, c2]).getD 0, (parseHexUint8 [c3, c4]).getD 0,
        (parseHexUint8 [c5, c6]).getD 0, 255⟩ := by
  have htrim : goTrimSpace ['#', c1, c2, c3, c4, c5, c6] =
      ['#', c1, c2, c3, c4, c5, c6] := by
    apply goTrimSpace_eq_self
    intro c hc
    simp only [List.mem_cons, List.not_mem_nil, or_false] at hc
    rcases hc with rfl | hc
    · decide
    · exact h c (by simpa using hc)
  unfold parseColorL
  rw [htrim]
  have hn : ("none".data : List Char) = ['n', 'o', 'n', 'e'] := rfl
  simp [hn]

theorem parseColorL_hash3 (c1 c2 c3 : Char)
    (h : ∀ c ∈ [c1, c2, c3], isGoSpace c = false) :
    parseColorL ['#', c1, c2, c3] =
      ⟨((parseHexUint8 [c1]).map (fun v => v * 17)).getD 0,
        ((parseHexUint8 [c2]).map (fun v => v * 17)).getD 0,
        ((parseHexUint8 [c3]).map (fun v => v * 17)).getD 0, 255⟩ := by
  have htrim : goTrimSpace ['#', c1, c2, c3] = ['#', c1, c2, c3] := by
    apply goTrimSpace_eq_self
    intro c hc
    simp only [List.mem_cons, List.not_mem_nil, or_false] at hc
    rcases hc with rfl | hc
    · decide
    · exact h c (by simpa using hc)
  unfold parseColorL
  rw [htrim]
  have hn : ("none".data : List Char) = ['n', 'o', 'n', 'e'] := rfl
  simp [hn]

theorem parseColorL_hash_other (l : List Char)
    (h : ∀ c ∈ l, isGoSpace c = false) (h6 : l.length ≠ 6) (h3 : l.length ≠ 3) :
    parseColorL ('#' :: l) = blackRGBA := by
  have htrim : goTrimSpace ('#' :: l) = '#' :: l := by
    apply goTrimSpace_eq_self
    intro c hc
    rcases List.mem_cons.mp hc with rfl | hc
    · decide
    · exact h c hc
  unfold parseColorL
  rw [htrim]
  have hn : ("none".data : List Char) = ['n', 'o', 'n', 'e'] := rfl
  simp [hn, h6, h3, blackRGBA]

theorem parseColorL_other_token (l : List Char)
    (ht : goTrimSpace l = l) (h1 : l ≠ []) (h2 : l ≠ "none".data)
    (h3 : l.head? ≠ some '#')
    (h4 : l ∉ (["white".data, "black".data, "red".data, "green".data,
      "blue".data] : List (List Char))) :
    parseColorL l = blackRGBA := by
  simp only [List.mem_cons, List.not_mem_nil, or_false, not_or] at h4
  obtain ⟨hw, hb, hr, hg, hu⟩ := h4
  unfold parseColorL
  rw [ht]
  rw [if_neg (by simp [h1, h2]), if_neg h3, if_neg hw, if_neg hb, if_neg hr,
    if_neg hg, if_neg hu]

/-- C5 (status: corrected).  The color resolver is total and matches the
claim except on `#` tokens of length 3 or 6 that are not all hex digits:
empty and `none` are transparent; `#` + 6 hex digits gives the exact
channels with alpha 255; `#` + 3 hex digits duplicates each nibble
(value × 17); the five names map to their pure values; `#` tokens of any
other length are opaque black, as is every other token; but on `#` + 6 (or
3) characters that are not all hex digits, each channel group that parses
keeps its value and only failing groups default to 0 (alpha 255), instead
of the whole token collapsing to black. -/
theorem parseColor_total_cases :
    (parseColor "" = transparentRGBA ∧ parseColor "none" = transparentRGBA) ∧
    (∀ c1 c2 c3 c4 c5 c6 : Char,
        (∀ c ∈ [c1, c2, c3, c4, c5, c6], isHexDigitC c = true) →
        parseColorL ['#', c1, c2, c3, c4, c5, c6] =
          ⟨16 * hexDigitVal c1 + hexDigitVal c2,
            16 * hexDigitVal c3 + hexDigitVal c4,
            16 * hexDigitVal c5 + hexDigitVal c6, 255⟩) ∧
    (∀ c1 c2 c3 : Char, (∀ c ∈ [c1, c2, c3], isHexDigitC c = true) →
        parseColorL ['#', c1, c2, c3] =
          ⟨hexDigitVal c1 * 17, hexDigitVal c2 * 17, hexDigitVal c3 * 17, 255⟩) ∧
    (parseColor "white" = whiteRGBA ∧ parseColor "black" = blackRGBA ∧
      parseColor "red" = ⟨255, 0, 0, 255⟩ ∧ parseColor "green" = ⟨0, 255, 0, 255⟩ ∧
      parseColor "blue" = ⟨0, 0, 255, 255⟩) ∧
    (∀ l : List Char, (∀ c ∈ l, isGoSpace c = false) →
        l.length ≠ 6 → l.length ≠ 3 → parseColorL ('#' :: l) = blackRGBA) ∧
    (∀ l : List Char, goTrimSpace l = l → l ≠ [] → l ≠ "none".data →
        l.head? ≠ some '#' →
        l ∉ (["white".data, "black".data, "red".data, "green".data,
          "blue".data] : List (List Char)) →
        parseColorL l = blackRGBA) ∧
    (∀ c1 c2 c3 c4 c5 c6 : Char,
        (∀ c ∈ [c1, c2, c3, c4, c5, c6], isGoSpace c = false) →
        parseColorL ['#', c1, c2, c3, c4, c5, c6] =
          ⟨(parseHexUint8 [c1, c2]).getD 0, (parseHexUint8 [c3, c4]).getD 0,
            (parseHexUint8 [c5, c6]).getD 0, 255⟩) ∧
    (∀ c1 c2 c3 : Char, (∀ c ∈ [c1, c2, c3], isGoSpace c = false) →
        parseColorL ['#', c1, c2, c3] =
          ⟨((parseHexUint8 [c1]).map (fun v => v * 17)).getD 0,
            ((parseHexUint8 [c2]).map (fun v => v * 17)).getD 0,
            ((parseHexUint8 [c3]).map (fun v => v * 17)).getD 0, 255⟩) := by
  refine ⟨⟨rfl, rfl⟩, ?_, ?_, ⟨rfl, rfl, rfl, rfl, rfl⟩, parseColorL_hash_other,
    parseColorL_other_token, parseColorL_hash6, parseColorL_hash3⟩
  · intro c1 c2 c3 c4 c5 c6 h
    rw [parseColorL_hash6 c1 c2 c3 c4 c5 c6
      (fun c hc => isHexDigit_not_space (h c hc))]
    rw [parseHexUint8_pair (h c1 (by simp)) (h c2 (by simp)),
      parseHexUint8_pair (h c3 (by simp)) (h c4 (by simp)),
      parseHexUint8_pair (h c5 (by simp)) (h c6 (by simp))]
    rfl
  · intro c1 c2 c3 h
    rw [parseColorL_hash3 c1 c2 c3 (fun c hc => isHexDigit_not_space (h c hc))]
    rw [parseHexUint8_single (h c1 (by simp)),
      parseHexUint8_single (h c2 (by simp)),
      parseHexUint8_single (h c3 (by simp))]
    rfl

/-- C5 witness. -/
theorem parseColor_total_cases_witness :
    parseColorL ['#', 'a', 'b', 'c', 'd', 'e', 'f'] = ⟨171, 205, 239, 255⟩ ∧
    parseColorL ['#', 'z', '1', '2'] = ⟨0, 17, 34, 255⟩ ∧
    parseColorL ['#', 'a', 'b', 'c', 'd'] = blackRGBA ∧
    parseColorL "fuchsia".data = blackRGBA := by
  refine ⟨?_, ?_, ?_, ?_⟩
  · rw [parseColor_total_cases.2.1 'a' 'b' 'c' 'd' 'e' 'f' (by decide)]
    decide
  · rw [parseColor_total_cases.2.2.2.2.2.2.2 'z' '1' '2' (by decide)]
    decide
  · exact parseColor_total_cases.2.2.2.2.1 ['a', 'b', 'c', 'd'] (by decide)
      (by decide) (by decide)
  · exact parseColor_total_cases.2.2.2.2.2.1 "fuchsia".data (by decide) (by decide)
      (by decide) (by decide) (by decide)
